import Mathlib

/-!
Shallow embedding of the DailyTransaction batch processor
(processor/apply_transactions.go, detector/anomaly_detector.go,
models, ingestion) and proofs about its business rules.

Modelling conventions:
* Go `float64` currency amounts and timestamps are modelled as exact
  rationals (`ℚ`); all constants of the program (-1000, 5000, 10000,
  0.8, ...) are exactly representable, and the claims are about exact
  comparisons and additions, not rounding.  Timestamps are rationals
  measured in minutes, so `time.Duration.Minutes()` of a difference is
  plain subtraction.
* A Go `map[string]models.Account` read with `m[k]` yields the zero
  value for a missing key; we model the map as a total function
  `String → Account` (an arbitrary total function subsumes every
  finite map with zero-value default).
* Presentation-only `fmt.Sprintf` texts whose arguments are program
  constants are embedded as the literal strings Go produces;
  the `Description` field of an anomaly, whose text interpolates
  run-time amounts, is presentation-only and not modelled (no claim
  mentions it).
-/

/-- models.Account (models package).  `LastTransactionTime` is a
rational timestamp in minutes. -/
structure Account where
  ID : String
  Balance : ℚ
  DailyDebits : ℚ
  DailyCredits : ℚ
  LastTransactionTime : ℚ
  OverdraftCount : Int
deriving Repr, DecidableEq, Inhabited

/-- models.Transaction.  The Go field `Type` is a Lean keyword, so it
is embedded as `Typ`. -/
structure Transaction where
  ID : String
  AccountID : String
  DestinationAccountID : String
  Timestamp : ℚ
  Amount : ℚ
  Typ : String
  Status : String
  Description : String
  ValidationMessage : String
  ProcessingMessage : String
deriving Repr, DecidableEq, Inhabited

/-- models.Anomaly.  The Go field `Type` is embedded as `Typ`; the
presentation-only `Description` string is not modelled. -/
structure Anomaly where
  TransactionID : String
  AccountID : String
  Timestamp : ℚ
  Typ : String
  Severity : String
deriving Repr, DecidableEq, Inhabited

/-- A Go `map[string]models.Account` as a total function (missing keys
hold the zero value in Go; a total function subsumes this). -/
def AccountMap : Type := String → Account

/-- Go map write `m[id] = a`. -/
def mapSet (m : AccountMap) (id : String) (a : Account) : AccountMap :=
  fun x => if x = id then a else m x

/-- processor constant `OverdraftLimit = -1000.0`. -/
def OverdraftLimit : ℚ := -1000

/-- processor constant `MaxDailyWithdrawalLimit = 5000.0`. -/
def MaxDailyWithdrawalLimit : ℚ := 5000

/-- processor.processCredit: apply a deposit.  The Go function takes
the pre-fetched `account` value and the working map, writes the
updated account back, and stamps the transaction `completed`. -/
def processCredit (transaction : Transaction) (account : Account)
    (accounts : AccountMap) : Transaction × AccountMap :=
  let account := { account with
    Balance := account.Balance + transaction.Amount
    DailyCredits := account.DailyCredits + transaction.Amount }
  let accounts := mapSet accounts transaction.AccountID account
  ({ transaction with Status := "completed" }, accounts)

/-- processor.processDebit: apply a withdrawal, checking the daily
withdrawal limit first, then the overdraft floor; on success, decrease
the balance, increase the daily-debit counter, and when the new
balance is negative bump the overdraft counter and set an
informational message (still `completed`). -/
def processDebit (transaction : Transaction) (account : Account)
    (accounts : AccountMap) : Transaction × AccountMap :=
  if account.DailyDebits + transaction.Amount > MaxDailyWithdrawalLimit then
    ({ transaction with
        Status := "rejected"
        ProcessingMessage := "Exceeds daily withdrawal limit of $5000.00" },
     accounts)
  else
    let newBalance := account.Balance - transaction.Amount
    if newBalance < OverdraftLimit then
      ({ transaction with
          Status := "rejected"
          ProcessingMessage := "Would exceed overdraft limit of $1000.00" },
       accounts)
    else
      let account := { account with
        Balance := newBalance
        DailyDebits := account.DailyDebits + transaction.Amount }
      let account :=
        if newBalance < 0 then
          { account with OverdraftCount := account.OverdraftCount + 1 }
        else account
      let transaction :=
        if newBalance < 0 then
          { transaction with ProcessingMessage := "Account in overdraft" }
        else transaction
      let accounts := mapSet accounts transaction.AccountID account
      ({ transaction with Status := "completed" }, accounts)

/-- processor.processTransfer: look up source and destination, reject
when the source would cross the overdraft floor, otherwise debit the
source and credit the destination, with the same negative-balance
bookkeeping as a debit on the source side.  The two map writes happen
in source order (source first, destination second). -/
def processTransfer (transaction : Transaction)
    (accounts : AccountMap) : Transaction × AccountMap :=
  let sourceAccount := accounts transaction.AccountID
  let destAccount := accounts transaction.DestinationAccountID
  let newBalance := sourceAccount.Balance - transaction.Amount
  if newBalance < OverdraftLimit then
    ({ transaction with
        Status := "rejected"
        ProcessingMessage := "Would exceed overdraft limit of $1000.00" },
     accounts)
  else
    let sourceAccount := { sourceAccount with
      Balance := newBalance
      DailyDebits := sourceAccount.DailyDebits + transaction.Amount }
    let destAccount := { destAccount with
      Balance := destAccount.Balance + transaction.Amount
      DailyCredits := destAccount.DailyCredits + transaction.Amount }
    let sourceAccount :=
      if newBalance < 0 then
        { sourceAccount with OverdraftCount := sourceAccount.OverdraftCount + 1 }
      else sourceAccount
    let transaction :=
      if newBalance < 0 then
        { transaction with ProcessingMessage := "Source account in overdraft" }
      else transaction
    let accounts := mapSet accounts transaction.AccountID sourceAccount
    let accounts := mapSet accounts transaction.DestinationAccountID destAccount
    ({ transaction with Status := "completed" }, accounts)

/-- One iteration of the loop body of processor.ProcessTransactions:
fetch the account, dispatch on the transaction type (an unknown type
falls through the `switch` unchanged), and, when the stamped status is
`completed`, update the source account's last-transaction timestamp. -/
def applyTransaction (accounts : AccountMap) (transaction : Transaction) :
    Transaction × AccountMap :=
  let account := accounts transaction.AccountID
  let r :=
    if transaction.Typ = "credit" then processCredit transaction account accounts
    else if transaction.Typ = "debit" then processDebit transaction account accounts
    else if transaction.Typ = "transfer" then processTransfer transaction accounts
    else (transaction, accounts)
  if r.1.Status = "completed" then
    let account := r.2 transaction.AccountID
    let account := { account with LastTransactionTime := transaction.Timestamp }
    (r.1, mapSet r.2 transaction.AccountID account)
  else r

/-- The `for i, transaction := range processedTransactions` loop:
thread the working map through the transactions, collecting the
stamped transactions in order. -/
def processLoop (accounts : AccountMap) :
    List Transaction → AccountMap × List Transaction
  | [] => (accounts, [])
  | t :: ts =>
    let r := applyTransaction accounts t
    let rest := processLoop r.2 ts
    (rest.1, r.1 :: rest.2)

/-- processor.ProcessTransactions: seed a private copy of the caller's
map (`processedAccounts`) and run the loop. -/
def ProcessTransactions (transactions : List Transaction)
    (accounts : AccountMap) : AccountMap × List Transaction :=
  let processedAccounts : AccountMap := fun id => accounts id
  processLoop processedAccounts transactions

/-- Go maps are reference values: `ProcessTransactions` receives the
caller's map reference (`accounts`) and allocates a private one
(`processedAccounts`).  To state the no-mutation-of-the-caller claim,
the heap holds both references explicitly; every map write in the
source targets `processedAccounts`, i.e. `work`. -/
structure Heap where
  orig : AccountMap
  work : AccountMap

/-- The loop body acting on the two-reference heap: all writes of the
source go through the `processedAccounts` reference (`work`). -/
def applyTransactionRef (h : Heap) (t : Transaction) : Transaction × Heap :=
  let r := applyTransaction h.work t
  (r.1, { h with work := r.2 })

/-- The transaction loop over the two-reference heap. -/
def processLoopRef (h : Heap) : List Transaction → Heap × List Transaction
  | [] => (h, [])
  | t :: ts =>
    let r := applyTransactionRef h t
    let rest := processLoopRef r.2 ts
    (rest.1, r.1 :: rest.2)

/-- processor.ProcessTransactions on the two-reference heap: the
`for id, account := range accounts` copy loop reads the caller's map
and writes a fresh private map, which becomes `work`. -/
def ProcessTransactionsRef (transactions : List Transaction) (h : Heap) :
    Heap × List Transaction :=
  let h := { h with work := fun id => h.orig id }
  processLoopRef h transactions

/-- detector constant `LargeTransactionThreshold = 10000.0`. -/
def LargeTransactionThreshold : ℚ := 10000

/-- detector constant `RapidWithdrawalThreshold = 3`. -/
def RapidWithdrawalThreshold : Nat := 3

/-- detector constant `RapidWithdrawalTimeWindowMins = 60`. -/
def RapidWithdrawalTimeWindowMins : ℚ := 60

/-- The detector's `withdrawalsByAccount` map, in key-insertion order.
(Go map iteration order is unspecified; the detector emits at most one
rapid-withdrawal anomaly per key, so the per-account claims do not
depend on the order in which keys are visited.) -/
def WMap : Type := List (String × List Transaction)

/-- Go `append(m[id], t)` followed by `m[id] = ...` on the
withdrawals map: append `t` to the entry of `id`, creating it at the
end when absent. -/
def wAppend : WMap → String → Transaction → WMap
  | [], id, t => [(id, [t])]
  | (k, ws) :: rest, id, t =>
    if k = id then (k, ws ++ [t]) :: rest
    else (k, ws) :: wAppend rest id t

/-- Lookup in the withdrawals map (`m[id]`, missing key = nil slice). -/
def wFind : WMap → String → List Transaction
  | [], _ => []
  | (k, ws) :: rest, id => if k = id then ws else wFind rest id

/-- The `large_transaction` anomaly the detector emits. -/
def mkLargeAnomaly (t : Transaction) : Anomaly :=
  { TransactionID := t.ID
    AccountID := t.AccountID
    Timestamp := t.Timestamp
    Typ := "large_transaction"
    Severity := "medium" }

/-- Severity of an overdraft anomaly: start at `low`, escalate to
`medium` below `OverdraftLimit/2`, to `high` below
`OverdraftLimit*0.8` (sequential overwrites, as in the source). -/
def overdraftSeverity (balance : ℚ) : String :=
  let severity := "low"
  let severity := if balance < OverdraftLimit / 2 then "medium" else severity
  let severity := if balance < OverdraftLimit * 0.8 then "high" else severity
  severity

/-- The `account_overdraft` anomaly the detector emits for a completed
transaction whose source account's final balance is negative. -/
def mkOverdraftAnomaly (accounts : AccountMap) (t : Transaction) : Anomaly :=
  { TransactionID := t.ID
    AccountID := t.AccountID
    Timestamp := t.Timestamp
    Typ := "account_overdraft"
    Severity := overdraftSeverity (accounts t.AccountID).Balance }

/-- The main loop of detector.DetectAnomalies: skip non-completed
transactions; per completed transaction emit a `large_transaction`
anomaly when the amount reaches the threshold, record debits in
`withdrawalsByAccount`, and emit an `account_overdraft` anomaly when
the source's (final) balance is negative. -/
def mainScan (accounts : AccountMap) (w : WMap) :
    List Transaction → List Anomaly × WMap
  | [] => ([], w)
  | t :: ts =>
    if t.Status = "completed" then
      let here :=
        (if t.Amount ≥ LargeTransactionThreshold then [mkLargeAnomaly t] else [])
          ++ (if (accounts t.AccountID).Balance < 0
              then [mkOverdraftAnomaly accounts t] else [])
      let w := if t.Typ = "debit" then wAppend w t.AccountID t else w
      let rest := mainScan accounts w ts
      (here ++ rest.1, rest.2)
    else mainScan accounts w ts

/-- The inner `for i := RapidWithdrawalThreshold - 1; i < len; i++`
loop of the rapid-withdrawal pass: at index `i`, compare the timestamp
span of the window `[i - (N-1), i]`; on the first window within the
time limit emit one `high` anomaly anchored at the window's last
transaction and stop (`break`); otherwise advance. -/
def rapidFrom (accountID : String) (ws : List Transaction) (i : Nat) :
    List Anomaly :=
  if i < ws.length then
    let last := ws.getD i default
    let first := ws.getD (i - (RapidWithdrawalThreshold - 1)) default
    if last.Timestamp - first.Timestamp ≤ RapidWithdrawalTimeWindowMins then
      [{ TransactionID := last.ID
         AccountID := accountID
         Timestamp := last.Timestamp
         Typ := "rapid_withdrawals"
         Severity := "high" }]
    else rapidFrom accountID ws (i + 1)
  else []
termination_by ws.length - i

/-- The rapid-withdrawal pass for one account's withdrawal list. -/
def rapidScan (accountID : String) (withdrawals : List Transaction) :
    List Anomaly :=
  if withdrawals.length ≥ RapidWithdrawalThreshold then
    rapidFrom accountID withdrawals (RapidWithdrawalThreshold - 1)
  else []

/-- detector.DetectAnomalies: the main per-transaction scan followed
by the per-account rapid-withdrawal pass, whose anomalies are appended
after the main scan's. -/
def DetectAnomalies (transactions : List Transaction)
    (accounts : AccountMap) : List Anomaly :=
  let r := mainScan accounts [] transactions
  r.1 ++ (r.2.map (fun p => rapidScan p.1 p.2)).flatten

/-- Spec-side description of a qualifying rapid-withdrawal window: the
window of size `RapidWithdrawalThreshold` ending at index `i` lies
inside the withdrawal list and its first-to-last timestamp span is
within the configured time window. -/
def windowQual (ws : List Transaction) (i : Nat) : Prop :=
  RapidWithdrawalThreshold - 1 ≤ i ∧ i < ws.length ∧
    (ws.getD i default).Timestamp
        - (ws.getD (i - (RapidWithdrawalThreshold - 1)) default).Timestamp
      ≤ RapidWithdrawalTimeWindowMins

instance windowQualDec (ws : List Transaction) (i : Nat) :
    Decidable (windowQual ws i) := by
  unfold windowQual; infer_instance

/-- The completed debit transactions of account `a`, in input order
(the contents of `withdrawalsByAccount[a]` after the main scan). -/
def completedDebitsFor (txs : List Transaction) (a : String) :
    List Transaction :=
  txs.filter (fun t => t.Status == "completed" && t.Typ == "debit"
    && t.AccountID == a)

/-! ### Concrete inputs used by counterexamples and witnesses -/

/-- A fresh account with the given id and balance and zeroed counters
(the shape `LoadAccounts` produces). -/
def sampleAccount (id : String) (bal : ℚ) : Account :=
  { ID := id
    Balance := bal
    DailyDebits := 0
    DailyCredits := 0
    LastTransactionTime := 0
    OverdraftCount := 0 }

/-- A pending transaction (the shape the ingestion step hands over). -/
def pendingTx (id acct dest : String) (ts amt : ℚ) (ty : String) :
    Transaction :=
  { ID := id
    AccountID := acct
    DestinationAccountID := dest
    Timestamp := ts
    Amount := amt
    Typ := ty
    Status := "pending"
    Description := ""
    ValidationMessage := ""
    ProcessingMessage := "" }

/-- A transaction already stamped `completed` (detector input shape). -/
def completedTx (id acct dest : String) (ts amt : ℚ) (ty : String) :
    Transaction :=
  { pendingTx id acct dest ts amt ty with Status := "completed" }

/-- Account map giving every id the same fresh balance. -/
def uniMap (bal : ℚ) : AccountMap := fun id => sampleAccount id bal

/-- Account map with two distinguished accounts `A1` and `A2`. -/
def twoMap (b1 b2 : ℚ) : AccountMap := fun id =>
  if id = "A1" then sampleAccount "A1" b1
  else if id = "A2" then sampleAccount "A2" b2
  else sampleAccount id 0

/-! ### Helper lemmas -/

@[simp]
theorem mapSet_same (m : AccountMap) (id : String) (a : Account) :
    mapSet m id a id = a := by
  simp [mapSet]

theorem mapSet_ne (m : AccountMap) (id x : String) (a : Account)
    (h : x ≠ id) : mapSet m id a x = m x := by
  simp [mapSet, h]

theorem mapSet_mapSet (m : AccountMap) (id : String) (a b : Account) :
    mapSet (mapSet m id a) id b = mapSet m id b := by
  funext x
  by_cases h : x = id <;> simp [mapSet, h]

/-- Canonical form of one loop iteration on a `credit` transaction. -/
theorem applyTransaction_credit (m : AccountMap) (t : Transaction)
    (ht : t.Typ = "credit") :
    applyTransaction m t =
      ({ t with Status := "completed" },
       mapSet m t.AccountID
         { m t.AccountID with
             Balance := (m t.AccountID).Balance + t.Amount
             DailyCredits := (m t.AccountID).DailyCredits + t.Amount
             LastTransactionTime := t.Timestamp }) := by
  simp [applyTransaction, processCredit, ht, mapSet_mapSet]

/-- Canonical form of one loop iteration on a `debit` transaction that
trips the daily withdrawal limit. -/
theorem applyTransaction_debit_limit (m : AccountMap) (t : Transaction)
    (ht : t.Typ = "debit")
    (h1 : (m t.AccountID).DailyDebits + t.Amount > MaxDailyWithdrawalLimit) :
    applyTransaction m t =
      ({ t with
           Status := "rejected"
           ProcessingMessage := "Exceeds daily withdrawal limit of $5000.00" },
       m) := by
  simp [applyTransaction, processDebit, ht, h1]

/-- Canonical form of one loop iteration on a `debit` transaction that
passes the daily limit but would cross the overdraft floor. -/
theorem applyTransaction_debit_floor (m : AccountMap) (t : Transaction)
    (ht : t.Typ = "debit")
    (h1 : ¬ (m t.AccountID).DailyDebits + t.Amount > MaxDailyWithdrawalLimit)
    (h2 : (m t.AccountID).Balance - t.Amount < OverdraftLimit) :
    applyTransaction m t =
      ({ t with
           Status := "rejected"
           ProcessingMessage := "Would exceed overdraft limit of $1000.00" },
       m) := by
  simp [applyTransaction, processDebit, ht, h1, h2]

/-- Canonical form of one loop iteration on a `debit` transaction that
passes both checks. -/
theorem applyTransaction_debit_ok (m : AccountMap) (t : Transaction)
    (ht : t.Typ = "debit")
    (h1 : ¬ (m t.AccountID).DailyDebits + t.Amount > MaxDailyWithdrawalLimit)
    (h2 : ¬ (m t.AccountID).Balance - t.Amount < OverdraftLimit) :
    applyTransaction m t =
      ({ t with
           Status := "completed"
           ProcessingMessage :=
             if (m t.AccountID).Balance - t.Amount < 0
             then "Account in overdraft" else t.ProcessingMessage },
       mapSet m t.AccountID
         { m t.AccountID with
             Balance := (m t.AccountID).Balance - t.Amount
             DailyDebits := (m t.AccountID).DailyDebits + t.Amount
             LastTransactionTime := t.Timestamp
             OverdraftCount :=
               if (m t.AccountID).Balance - t.Amount < 0
               then (m t.AccountID).OverdraftCount + 1
               else (m t.AccountID).OverdraftCount }) := by
  by_cases h3 : (m t.AccountID).Balance - t.Amount < 0 <;>
    simp [applyTransaction, processDebit, ht, h1, h2, h3, mapSet_mapSet]

/-- Canonical form of one loop iteration on a `transfer` transaction
that would cross the overdraft floor on the source side. -/
theorem applyTransaction_transfer_floor (m : AccountMap) (t : Transaction)
    (ht : t.Typ = "transfer")
    (h : (m t.AccountID).Balance - t.Amount < OverdraftLimit) :
    applyTransaction m t =
      ({ t with
           Status := "rejected"
           ProcessingMessage := "Would exceed overdraft limit of $1000.00" },
       m) := by
  simp [applyTransaction, processTransfer, ht, h]

/-- Canonical form of one loop iteration on a `transfer` transaction
that passes the floor check: debit the source, credit the destination
(map writes in source order), then stamp the source's timestamp. -/
theorem applyTransaction_transfer_ok (m : AccountMap) (t : Transaction)
    (ht : t.Typ = "transfer")
    (h : ¬ (m t.AccountID).Balance - t.Amount < OverdraftLimit) :
    applyTransaction m t =
      ({ t with
           Status := "completed"
           ProcessingMessage :=
             if (m t.AccountID).Balance - t.Amount < 0
             then "Source account in overdraft" else t.ProcessingMessage },
       let srcA :=
         { m t.AccountID with
             Balance := (m t.AccountID).Balance - t.Amount
             DailyDebits := (m t.AccountID).DailyDebits + t.Amount
             OverdraftCount :=
               if (m t.AccountID).Balance - t.Amount < 0
               then (m t.AccountID).OverdraftCount + 1
               else (m t.AccountID).OverdraftCount }
       let dstA :=
         { m t.DestinationAccountID with
             Balance := (m t.DestinationAccountID).Balance + t.Amount
             DailyCredits := (m t.DestinationAccountID).DailyCredits + t.Amount }
       let m2 := mapSet (mapSet m t.AccountID srcA) t.DestinationAccountID dstA
       mapSet m2 t.AccountID
         { m2 t.AccountID with LastTransactionTime := t.Timestamp }) := by
  by_cases h3 : (m t.AccountID).Balance - t.Amount < 0 <;>
    simp [applyTransaction, processTransfer, ht, h, h3]

/-- One loop iteration on a transaction of unknown type: the `switch`
has no default branch, so the transaction and the map pass through;
the timestamp write still fires when the input status is already
`completed`. -/
theorem applyTransaction_other (m : AccountMap) (t : Transaction)
    (h1 : t.Typ ≠ "credit") (h2 : t.Typ ≠ "debit") (h3 : t.Typ ≠ "transfer") :
    applyTransaction m t =
      (if t.Status = "completed" then
         (t, mapSet m t.AccountID
               { m t.AccountID with LastTransactionTime := t.Timestamp })
       else (t, m)) := by
  by_cases h4 : t.Status = "completed" <;>
    simp [applyTransaction, h1, h2, h3, h4]

/-! ### Claim theorems: ledger engine -/

/-- Claim C4: a pending debit is rejected with the daily-limit message
when `dailyDebits + amount` exceeds the daily withdrawal limit;
otherwise it is rejected with the overdraft-floor message when
`balance - amount` falls below the floor (the daily-limit check comes
first); otherwise it completes, the balance decreases by the amount,
the daily-debit counter increases by the amount, and when the
resulting balance is negative the overdraft counter is incremented and
an informational message is set while the transaction stays
`completed`. -/
theorem claim4_debit_processing (m : AccountMap) (t : Transaction)
    (ht : t.Typ = "debit") :
    ((m t.AccountID).DailyDebits + t.Amount > MaxDailyWithdrawalLimit →
       (applyTransaction m t).1.Status = "rejected" ∧
       (applyTransaction m t).1.ProcessingMessage =
         "Exceeds daily withdrawal limit of $5000.00") ∧
    (¬ (m t.AccountID).DailyDebits + t.Amount > MaxDailyWithdrawalLimit →
     (m t.AccountID).Balance - t.Amount < OverdraftLimit →
       (applyTransaction m t).1.Status = "rejected" ∧
       (applyTransaction m t).1.ProcessingMessage =
         "Would exceed overdraft limit of $1000.00") ∧
    (¬ (m t.AccountID).DailyDebits + t.Amount > MaxDailyWithdrawalLimit →
     ¬ (m t.AccountID).Balance - t.Amount < OverdraftLimit →
       (applyTransaction m t).1.Status = "completed" ∧
       ((applyTransaction m t).2 t.AccountID).Balance =
         (m t.AccountID).Balance - t.Amount ∧
       ((applyTransaction m t).2 t.AccountID).DailyDebits =
         (m t.AccountID).DailyDebits + t.Amount ∧
       ((m t.AccountID).Balance - t.Amount < 0 →
         ((applyTransaction m t).2 t.AccountID).OverdraftCount =
           (m t.AccountID).OverdraftCount + 1 ∧
         (applyTransaction m t).1.ProcessingMessage = "Account in overdraft") ∧
       (¬ (m t.AccountID).Balance - t.Amount < 0 →
         ((applyTransaction m t).2 t.AccountID).OverdraftCount =
           (m t.AccountID).OverdraftCount ∧
         (applyTransaction m t).1.ProcessingMessage = t.ProcessingMessage)) := by
  refine ⟨fun h1 => ?_, fun h1 h2 => ?_, fun h1 h2 => ?_⟩
  · rw [applyTransaction_debit_limit m t ht h1]
    exact ⟨rfl, rfl⟩
  · rw [applyTransaction_debit_floor m t ht h1 h2]
    exact ⟨rfl, rfl⟩
  · rw [applyTransaction_debit_ok m t ht h1 h2]
    refine ⟨rfl, by simp, by simp, fun h3 => ⟨by simp [h3], by simp [h3]⟩,
      fun h3 => ⟨by simp [h3], by simp [h3]⟩⟩

/-- Witness for C4: the spec scenario — balance 100, debit 50 —
completes with balance 50 and daily debits 50. -/
theorem claim4_witness :
    (applyTransaction (uniMap 100) (pendingTx "T1" "A1" "" 0 50 "debit")).1.Status
        = "completed" ∧
    ((applyTransaction (uniMap 100) (pendingTx "T1" "A1" "" 0 50 "debit")).2
        "A1").Balance = 50 ∧
    ((applyTransaction (uniMap 100) (pendingTx "T1" "A1" "" 0 50 "debit")).2
        "A1").DailyDebits = 50 := by
  have h := (claim4_debit_processing (uniMap 100)
    (pendingTx "T1" "A1" "" 0 50 "debit") rfl).2.2
    (by norm_num [uniMap, sampleAccount, pendingTx, MaxDailyWithdrawalLimit])
    (by norm_num [uniMap, sampleAccount, pendingTx, OverdraftLimit])
  exact ⟨h.1,
    h.2.1.trans (by norm_num [uniMap, sampleAccount, pendingTx]),
    h.2.2.1.trans (by norm_num [uniMap, sampleAccount, pendingTx])⟩

/-- Claim C5: a pending transfer is stamped `rejected` exactly when the
source balance minus the amount would fall below the overdraft floor;
the destination's state and the daily withdrawal limit never cause a
rejection (the completion condition mentions the source balance
only). -/
theorem claim5_transfer_rejection (m : AccountMap) (t : Transaction)
    (ht : t.Typ = "transfer") :
    ((applyTransaction m t).1.Status = "rejected" ↔
       (m t.AccountID).Balance - t.Amount < OverdraftLimit) ∧
    ((applyTransaction m t).1.Status = "completed" ↔
       ¬ (m t.AccountID).Balance - t.Amount < OverdraftLimit) := by
  by_cases h : (m t.AccountID).Balance - t.Amount < OverdraftLimit
  · rw [applyTransaction_transfer_floor m t ht h]
    constructor <;> simp [h]
  · rw [applyTransaction_transfer_ok m t ht h]
    constructor <;> simp [h]

/-- Witness for C5: a transfer of 1200 from a balance of 100 would
reach -1100 < -1000 and is rejected. -/
theorem claim5_witness :
    (applyTransaction (twoMap 100 50)
      (pendingTx "T1" "A1" "A2" 0 1200 "transfer")).1.Status = "rejected" :=
  (claim5_transfer_rejection (twoMap 100 50)
    (pendingTx "T1" "A1" "A2" 0 1200 "transfer") rfl).1.mpr
    (by norm_num [twoMap, sampleAccount, pendingTx, OverdraftLimit])

/-- Claim C2: transfer atomicity.  For a transfer between distinct
accounts (the ingestion step rejects self-transfers before the engine
runs), completion moves exactly the amount from source to destination
in the same application step, and rejection changes neither
balance. -/
theorem claim2_transfer_atomicity (m : AccountMap) (t : Transaction)
    (ht : t.Typ = "transfer")
    (hne : t.AccountID ≠ t.DestinationAccountID) :
    ((applyTransaction m t).1.Status = "completed" →
       ((applyTransaction m t).2 t.AccountID).Balance =
         (m t.AccountID).Balance - t.Amount ∧
       ((applyTransaction m t).2 t.DestinationAccountID).Balance =
         (m t.DestinationAccountID).Balance + t.Amount) ∧
    ((applyTransaction m t).1.Status = "rejected" →
       ((applyTransaction m t).2 t.AccountID).Balance =
         (m t.AccountID).Balance ∧
       ((applyTransaction m t).2 t.DestinationAccountID).Balance =
         (m t.DestinationAccountID).Balance) := by
  have hne' : t.DestinationAccountID ≠ t.AccountID := Ne.symm hne
  by_cases h : (m t.AccountID).Balance - t.Amount < OverdraftLimit
  · rw [applyTransaction_transfer_floor m t ht h]
    exact ⟨fun hc => by simp at hc, fun _ => ⟨rfl, rfl⟩⟩
  · rw [applyTransaction_transfer_ok m t ht h]
    refine ⟨fun _ => ?_, fun hc => by simp at hc⟩
    constructor
    · simp [mapSet, hne, hne']
    · simp [mapSet, hne, hne']

/-- Witness for C2: the spec scenario — transfer 200 from `A1`
(balance 100) to `A2` (balance 50) completes, `A1` ends at -100 and
`A2` at 250. -/
theorem claim2_witness :
    ((applyTransaction (twoMap 100 50)
        (pendingTx "T1" "A1" "A2" 0 200 "transfer")).2 "A1").Balance =
      (twoMap 100 50 "A1").Balance - 200 ∧
    ((applyTransaction (twoMap 100 50)
        (pendingTx "T1" "A1" "A2" 0 200 "transfer")).2 "A2").Balance =
      (twoMap 100 50 "A2").Balance + 200 :=
  (claim2_transfer_atomicity (twoMap 100 50)
      (pendingTx "T1" "A1" "A2" 0 200 "transfer") rfl (by simp [pendingTx])).1
    (by rw [applyTransaction_transfer_ok (twoMap 100 50)
        (pendingTx "T1" "A1" "A2" 0 200 "transfer") rfl
        (by norm_num [twoMap, sampleAccount, pendingTx, OverdraftLimit])])

/-- Claim C6: rejection never mutates account state — if a loop
iteration stamps its transaction `rejected`, every account (source,
destination, and everyone else: balance, daily counters, overdraft
count, last-transaction timestamp) is exactly as before. -/
theorem claim6_rejection_frame (m : AccountMap) (t : Transaction)
    (h : (applyTransaction m t).1.Status = "rejected") :
    ∀ id, (applyTransaction m t).2 id = m id := by
  intro id
  by_cases hc : t.Typ = "credit"
  · rw [applyTransaction_credit m t hc] at h
    simp at h
  by_cases hd : t.Typ = "debit"
  · by_cases h1 : (m t.AccountID).DailyDebits + t.Amount > MaxDailyWithdrawalLimit
    · rw [applyTransaction_debit_limit m t hd h1]
    · by_cases h2 : (m t.AccountID).Balance - t.Amount < OverdraftLimit
      · rw [applyTransaction_debit_floor m t hd h1 h2]
      · rw [applyTransaction_debit_ok m t hd h1 h2] at h
        simp at h
  by_cases htr : t.Typ = "transfer"
  · by_cases h2 : (m t.AccountID).Balance - t.Amount < OverdraftLimit
    · rw [applyTransaction_transfer_floor m t htr h2]
    · rw [applyTransaction_transfer_ok m t htr h2] at h
      simp at h
  rw [applyTransaction_other m t hc hd htr] at h ⊢
  by_cases hs : t.Status = "completed"
  · rw [if_pos hs] at h
    rw [hs] at h
    simp at h
  · rw [if_neg hs]

/-- Witness for C6: the spec scenario — balance 100, debit 1200 hits
the overdraft floor, is rejected, and leaves the account unchanged. -/
theorem claim6_witness :
    (applyTransaction (uniMap 100)
        (pendingTx "T1" "A1" "" 0 1200 "debit")).2 "A1" = uniMap 100 "A1" := by
  have h : (applyTransaction (uniMap 100)
      (pendingTx "T1" "A1" "" 0 1200 "debit")).1.Status = "rejected" := by
    rw [applyTransaction_debit_floor (uniMap 100)
      (pendingTx "T1" "A1" "" 0 1200 "debit") rfl
      (by norm_num [uniMap, sampleAccount, pendingTx, MaxDailyWithdrawalLimit])
      (by norm_num [uniMap, sampleAccount, pendingTx, OverdraftLimit])]
  exact claim6_rejection_frame (uniMap 100)
    (pendingTx "T1" "A1" "" 0 1200 "debit") h "A1"

/-- Counterexample to C3 as stated: a transfer of 6000 from a balance
of 10000 completes (the daily withdrawal limit is not checked for
transfers) and leaves the source's daily-debit total at 6000, above
the 5000 limit. -/
theorem claim3_counterexample :
    (pendingTx "T1" "A1" "A2" 0 6000 "transfer").Typ = "transfer" ∧
    (applyTransaction (twoMap 10000 0)
        (pendingTx "T1" "A1" "A2" 0 6000 "transfer")).1.Status = "completed" ∧
    ¬ ((applyTransaction (twoMap 10000 0)
          (pendingTx "T1" "A1" "A2" 0 6000 "transfer")).2 "A1").DailyDebits
        ≤ MaxDailyWithdrawalLimit := by
  rw [applyTransaction_transfer_ok (twoMap 10000 0)
    (pendingTx "T1" "A1" "A2" 0 6000 "transfer") rfl
    (by norm_num [twoMap, sampleAccount, pendingTx, OverdraftLimit])]
  refine ⟨rfl, rfl, ?_⟩
  simp [twoMap, sampleAccount, pendingTx, mapSet]
  norm_num [MaxDailyWithdrawalLimit]

/-- Claim C3 (amended): for every debit stamped `completed`, the
source account's daily-debit total immediately after the application
is at most the daily withdrawal limit; transfers are exempt from the
limit and can push the total above it (see the counterexample). -/
theorem claim3_debit_daily_cap (m : AccountMap) (t : Transaction)
    (ht : t.Typ = "debit")
    (h : (applyTransaction m t).1.Status = "completed") :
    ((applyTransaction m t).2 t.AccountID).DailyDebits
      ≤ MaxDailyWithdrawalLimit := by
  by_cases h1 : (m t.AccountID).DailyDebits + t.Amount > MaxDailyWithdrawalLimit
  · rw [applyTransaction_debit_limit m t ht h1] at h
    simp at h
  by_cases h2 : (m t.AccountID).Balance - t.Amount < OverdraftLimit
  · rw [applyTransaction_debit_floor m t ht h1 h2] at h
    simp at h
  rw [applyTransaction_debit_ok m t ht h1 h2]
  simp
  linarith [not_lt.mp h1]

/-- Witness for the amended C3: a completed debit of 50 from a fresh
account leaves the daily-debit total at 50 ≤ 5000. -/
theorem claim3_witness :
    ((applyTransaction (uniMap 100) (pendingTx "T2" "A1" "" 0 50 "debit")).2
        "A1").DailyDebits ≤ MaxDailyWithdrawalLimit := by
  have h : (applyTransaction (uniMap 100)
      (pendingTx "T2" "A1" "" 0 50 "debit")).1.Status = "completed" := by
    rw [applyTransaction_debit_ok (uniMap 100)
      (pendingTx "T2" "A1" "" 0 50 "debit") rfl
      (by norm_num [uniMap, sampleAccount, pendingTx, MaxDailyWithdrawalLimit])
      (by norm_num [uniMap, sampleAccount, pendingTx, OverdraftLimit])]
  exact claim3_debit_daily_cap (uniMap 100)
    (pendingTx "T2" "A1" "" 0 50 "debit") rfl h

/-- One loop iteration preserves the overdraft floor on every balance,
provided the transaction amount is nonnegative (ingestion validates
amounts positive). -/
theorem applyTransaction_floor_step (m : AccountMap) (t : Transaction)
    (ha : 0 ≤ t.Amount)
    (hb : ∀ id, OverdraftLimit ≤ (m id).Balance) :
    ∀ id, OverdraftLimit ≤ ((applyTransaction m t).2 id).Balance := by
  intro id
  by_cases hc : t.Typ = "credit"
  · rw [applyTransaction_credit m t hc]
    simp only [mapSet]
    split_ifs <;>
      first
        | (show OverdraftLimit ≤ (m t.AccountID).Balance + t.Amount
           linarith [hb t.AccountID])
        | exact hb id
  by_cases hd : t.Typ = "debit"
  · by_cases h1 : (m t.AccountID).DailyDebits + t.Amount > MaxDailyWithdrawalLimit
    · rw [applyTransaction_debit_limit m t hd h1]
      exact hb id
    by_cases h2 : (m t.AccountID).Balance - t.Amount < OverdraftLimit
    · rw [applyTransaction_debit_floor m t hd h1 h2]
      exact hb id
    rw [applyTransaction_debit_ok m t hd h1 h2]
    simp only [mapSet]
    split_ifs <;>
      first
        | (show OverdraftLimit ≤ (m t.AccountID).Balance - t.Amount
           linarith [not_lt.mp h2])
        | exact hb id
  by_cases htr : t.Typ = "transfer"
  · by_cases h2 : (m t.AccountID).Balance - t.Amount < OverdraftLimit
    · rw [applyTransaction_transfer_floor m t htr h2]
      exact hb id
    rw [applyTransaction_transfer_ok m t htr h2]
    simp only [mapSet]
    split_ifs <;>
      first
        | (show OverdraftLimit ≤ (m t.DestinationAccountID).Balance + t.Amount
           linarith [hb t.DestinationAccountID])
        | (show OverdraftLimit ≤ (m t.AccountID).Balance - t.Amount
           linarith [not_lt.mp h2])
        | exact hb id
  rw [applyTransaction_other m t hc hd htr]
  by_cases hs : t.Status = "completed"
  · rw [if_pos hs]
    simp only [mapSet]
    split_ifs <;>
      first
        | exact hb t.AccountID
        | exact hb id
  · rw [if_neg hs]
    exact hb id

/-- The transaction loop preserves the overdraft floor on every
balance when all amounts are nonnegative. -/
theorem processLoop_floor :
    ∀ (txs : List Transaction) (m : AccountMap),
      (∀ t ∈ txs, 0 ≤ t.Amount) →
      (∀ id, OverdraftLimit ≤ (m id).Balance) →
      ∀ id, OverdraftLimit ≤ ((processLoop m txs).1 id).Balance := by
  intro txs
  induction txs with
  | nil => intro m _ hb id; exact hb id
  | cons t ts ih =>
    intro m ha hb id
    have step := applyTransaction_floor_step m t (ha t (List.mem_cons_self t ts)) hb
    exact ih (applyTransaction m t).2
      (fun t' ht' => ha t' (List.mem_cons_of_mem t ht')) step id

/-- Counterexample to C1 as stated: an account loaded already below
the floor (balance -2000) stays below the floor after a run over an
empty transaction sequence. -/
theorem claim1_counterexample :
    ¬ (OverdraftLimit ≤
        ((ProcessTransactions [] (uniMap (-2000))).1 "A1").Balance) := by
  norm_num [ProcessTransactions, processLoop, uniMap, sampleAccount,
    OverdraftLimit]

/-- Claim C1 (amended): provided every account starts at or above the
overdraft floor and every transaction amount is nonnegative (both
guaranteed by the upstream loading/validation steps), after
`ProcessTransactions` every account's balance is still at or above
the floor — no completed transaction pushes a balance below it. -/
theorem claim1_floor_after_processing (accounts : AccountMap)
    (txs : List Transaction)
    (ha : ∀ t ∈ txs, 0 ≤ t.Amount)
    (hb : ∀ id, OverdraftLimit ≤ (accounts id).Balance) :
    ∀ id, OverdraftLimit ≤ ((ProcessTransactions txs accounts).1 id).Balance := by
  unfold ProcessTransactions
  exact processLoop_floor txs accounts ha hb

/-- Witness for the amended C1: balance 100 and one debit of 50 ends
at 50 ≥ -1000. -/
theorem claim1_witness :
    OverdraftLimit ≤
      ((ProcessTransactions [pendingTx "T1" "A1" "" 0 50 "debit"]
          (uniMap 100)).1 "A1").Balance :=
  claim1_floor_after_processing (uniMap 100)
    [pendingTx "T1" "A1" "" 0 50 "debit"]
    (by intro t ht
        simp only [List.mem_singleton] at ht
        subst ht
        norm_num [pendingTx])
    (by intro id
        norm_num [uniMap, sampleAccount, OverdraftLimit])
    "A1"

/-- The loop on the two-reference heap never writes the caller's map
reference. -/
theorem processLoopRef_orig :
    ∀ (txs : List Transaction) (h : Heap),
      ((processLoopRef h txs).1).orig = h.orig := by
  intro txs
  induction txs with
  | nil => intro h; rfl
  | cons t ts ih =>
    intro h
    exact ih { h with work := (applyTransaction h.work t).2 }

/-- The two-reference heap embedding computes the same working map and
stamped transactions as the direct one. -/
theorem processLoopRef_work :
    ∀ (txs : List Transaction) (h : Heap),
      ((processLoopRef h txs).1).work = (processLoop h.work txs).1 ∧
      (processLoopRef h txs).2 = (processLoop h.work txs).2 := by
  intro txs
  induction txs with
  | nil => intro h; exact ⟨rfl, rfl⟩
  | cons t ts ih =>
    intro h
    have h1 := ih { h with work := (applyTransaction h.work t).2 }
    refine ⟨h1.1, ?_⟩
    show (applyTransaction h.work t).1
        :: (processLoopRef { h with work := (applyTransaction h.work t).2 } ts).2
      = (applyTransaction h.work t).1
        :: (processLoop (applyTransaction h.work t).2 ts).2
    rw [h1.2]

/-- Claim C7: `ProcessTransactions` never mutates the caller's account
mapping — all writes go to the private copy seeded from the input, and
after the call the caller's map reference still yields the same
`Account` value for every id. -/
theorem claim7_caller_map_untouched (accounts scratch : AccountMap)
    (txs : List Transaction) :
    ∀ id,
      ((ProcessTransactionsRef txs { orig := accounts, work := scratch }).1).orig
          id
        = accounts id := by
  intro id
  unfold ProcessTransactionsRef
  rw [processLoopRef_orig]

/-- One loop iteration preserves, for every account, the quantity
`balance - dailyCredits + dailyDebits` (credits move balance and
credit counter together, debits move balance and debit counter
oppositely, transfers do both). -/
theorem applyTransaction_accounting (m : AccountMap) (t : Transaction) :
    ∀ id,
      ((applyTransaction m t).2 id).Balance
          - ((applyTransaction m t).2 id).DailyCredits
          + ((applyTransaction m t).2 id).DailyDebits
        = (m id).Balance - (m id).DailyCredits + (m id).DailyDebits := by
  intro id
  by_cases hc : t.Typ = "credit"
  · rw [applyTransaction_credit m t hc]
    simp only [mapSet]
    split_ifs <;> simp_all
  by_cases hd : t.Typ = "debit"
  · by_cases h1 : (m t.AccountID).DailyDebits + t.Amount > MaxDailyWithdrawalLimit
    · rw [applyTransaction_debit_limit m t hd h1]
    by_cases h2 : (m t.AccountID).Balance - t.Amount < OverdraftLimit
    · rw [applyTransaction_debit_floor m t hd h1 h2]
    rw [applyTransaction_debit_ok m t hd h1 h2]
    simp only [mapSet]
    split_ifs <;> simp_all <;> ring
  by_cases htr : t.Typ = "transfer"
  · by_cases h2 : (m t.AccountID).Balance - t.Amount < OverdraftLimit
    · rw [applyTransaction_transfer_floor m t htr h2]
    rw [applyTransaction_transfer_ok m t htr h2]
    simp only [mapSet]
    split_ifs <;> simp_all <;> ring
  rw [applyTransaction_other m t hc hd htr]
  by_cases hs : t.Status = "completed"
  · rw [if_pos hs]
    simp only [mapSet]
    split_ifs <;> simp_all
  · rw [if_neg hs]

/-- The whole loop preserves `balance - dailyCredits + dailyDebits`
for every account. -/
theorem processLoop_accounting :
    ∀ (txs : List Transaction) (m : AccountMap) (id : String),
      ((processLoop m txs).1 id).Balance
          - ((processLoop m txs).1 id).DailyCredits
          + ((processLoop m txs).1 id).DailyDebits
        = (m id).Balance - (m id).DailyCredits + (m id).DailyDebits := by
  intro txs
  induction txs with
  | nil => intro m id; rfl
  | cons t ts ih =>
    intro m id
    exact (ih (applyTransaction m t).2 id).trans
      (applyTransaction_accounting m t id)

/-- Claim C10: for every account, the balance change over a whole
`ProcessTransactions` run equals the daily-credit change minus the
daily-debit change, and every single application step (credit, debit,
transfer, or fall-through) preserves this accounting identity. -/
theorem claim10_accounting_identity (txs : List Transaction)
    (accounts : AccountMap) :
    (∀ id,
       ((ProcessTransactions txs accounts).1 id).Balance
           - (accounts id).Balance
         = (((ProcessTransactions txs accounts).1 id).DailyCredits
             - (accounts id).DailyCredits)
           - (((ProcessTransactions txs accounts).1 id).DailyDebits
               - (accounts id).DailyDebits)) ∧
    (∀ (m : AccountMap) (t : Transaction) (id : String),
       ((applyTransaction m t).2 id).Balance - (m id).Balance
         = (((applyTransaction m t).2 id).DailyCredits
             - (m id).DailyCredits)
           - (((applyTransaction m t).2 id).DailyDebits
               - (m id).DailyDebits)) := by
  constructor
  · intro id
    have h := processLoop_accounting txs accounts id
    unfold ProcessTransactions
    linarith
  · intro m t id
    have h := applyTransaction_accounting m t id
    linarith

/-! ### Detector lemmas -/

/-- Every anomaly produced by the rapid-withdrawal loop carries type
`rapid_withdrawals`, severity `high`, and the account it was scanned
for. -/
theorem rapidFrom_mem (a : String) (ws : List Transaction) :
    ∀ n i, ws.length - i ≤ n → ∀ an ∈ rapidFrom a ws i,
      an.Typ = "rapid_withdrawals" ∧ an.AccountID = a ∧
        an.Severity = "high" := by
  intro n
  induction n with
  | zero =>
    intro i hle an han
    rw [rapidFrom] at han
    rw [if_neg (by omega)] at han
    simp at han
  | succ n ih =>
    intro i hle an han
    rw [rapidFrom] at han
    by_cases h : i < ws.length
    · rw [if_pos h] at han
      by_cases hq : (ws.getD i default).Timestamp
          - (ws.getD (i - (RapidWithdrawalThreshold - 1)) default).Timestamp
          ≤ RapidWithdrawalTimeWindowMins
      · rw [if_pos hq] at han
        simp at han
        subst han
        exact ⟨rfl, rfl, rfl⟩
      · rw [if_neg hq] at han
        exact ih (i + 1) (by omega) an han
    · rw [if_neg h] at han
      simp at han

/-- Every anomaly of `rapidScan` is a `rapid_withdrawals` anomaly for
the scanned account. -/
theorem rapidScan_mem (a : String) (ws : List Transaction) :
    ∀ an ∈ rapidScan a ws,
      an.Typ = "rapid_withdrawals" ∧ an.AccountID = a ∧
        an.Severity = "high" := by
  intro an han
  unfold rapidScan at han
  by_cases h : ws.length ≥ RapidWithdrawalThreshold
  · rw [if_pos h] at han
    exact rapidFrom_mem a ws ws.length (RapidWithdrawalThreshold - 1)
      (by omega) an han
  · rw [if_neg h] at han
    simp at han

/-- The rapid-withdrawal pass never produces an `account_overdraft`
anomaly. -/
theorem rapid_part_filter_overdraft (w : WMap) :
    ((w.map (fun p => rapidScan p.1 p.2)).flatten).filter
        (fun an => an.Typ == "account_overdraft") = [] := by
  rw [List.filter_eq_nil_iff]
  intro an hmem
  rw [List.mem_flatten] at hmem
  obtain ⟨l, hl, hanl⟩ := hmem
  rw [List.mem_map] at hl
  obtain ⟨p, _, hp⟩ := hl
  subst hp
  have h := (rapidScan_mem p.1 p.2 an hanl).1
  simp [h]

/-- Lookup after a `wAppend`: the appended entry's list grows by one
element at the end; other entries are untouched. -/
theorem wFind_wAppend :
    ∀ (w : WMap) (id : String) (t : Transaction) (a : String),
      wFind (wAppend w id t) a =
        if a = id then wFind w a ++ [t] else wFind w a := by
  intro w
  induction w with
  | nil =>
    intro id t a
    by_cases h : a = id
    · simp [wAppend, wFind, h]
    · simp [wAppend, wFind, h, Ne.symm h]
  | cons p rest ih =>
    intro id t a
    obtain ⟨k, ws⟩ := p
    by_cases hk : k = id
    · subst hk
      by_cases hak : k = a
      · subst hak
        simp [wAppend, wFind]
      · simp [wAppend, wFind, hak, Ne.symm hak]
    · by_cases hak : k = a
      · subst hak
        simp [wAppend, wFind, hk, Ne.symm hk]
      · simp [wAppend, wFind, hk, hak, ih]

/-- After the main scan, the withdrawals recorded for account `a` are
whatever was there before followed by the completed debits of `a`, in
input order. -/
theorem mainScan_wFind (accounts : AccountMap) :
    ∀ (ts : List Transaction) (w : WMap) (a : String),
      wFind ((mainScan accounts w ts).2) a =
        wFind w a ++ completedDebitsFor ts a := by
  intro ts
  induction ts with
  | nil =>
    intro w a
    simp [mainScan, completedDebitsFor]
  | cons t ts ih =>
    intro w a
    by_cases hs : t.Status = "completed"
    · by_cases hty : t.Typ = "debit"
      · by_cases hid : t.AccountID = a
        · simp only [mainScan, hs, hty, if_true, eq_self_iff_true, if_pos]
          rw [ih (wAppend w t.AccountID t) a]
          rw [wFind_wAppend w t.AccountID t a]
          rw [if_pos hid.symm]
          simp [completedDebitsFor, List.filter_cons, hs, hty, hid]
        · simp only [mainScan, hs, hty, if_true, eq_self_iff_true, if_pos]
          rw [ih (wAppend w t.AccountID t) a]
          rw [wFind_wAppend w t.AccountID t a]
          rw [if_neg (fun hh => hid hh.symm)]
          simp [completedDebitsFor, List.filter_cons, hs, hty, hid]
      · simp only [mainScan, hs, if_true, eq_self_iff_true, if_pos]
        rw [if_neg hty]
        rw [ih w a]
        simp [completedDebitsFor, List.filter_cons, hs, hty]
    · simp only [mainScan, hs]
      rw [if_neg (by simp)]
      rw [ih w a]
      simp [completedDebitsFor, List.filter_cons, hs]

/-- The `account_overdraft` anomalies of the main scan are exactly one
per completed transaction whose source's (final) balance is negative,
in input order. -/
theorem mainScan_filter_overdraft (accounts : AccountMap) :
    ∀ (ts : List Transaction) (w : WMap),
      ((mainScan accounts w ts).1).filter
          (fun an => an.Typ == "account_overdraft") =
        (ts.filter (fun t => t.Status == "completed"
            && decide ((accounts t.AccountID).Balance < 0))).map
          (mkOverdraftAnomaly accounts) := by
  intro ts
  induction ts with
  | nil =>
    intro w
    simp [mainScan]
  | cons t ts ih =>
    intro w
    by_cases hs : t.Status = "completed"
    · by_cases hbal : (accounts t.AccountID).Balance < 0
      · by_cases hlarge : t.Amount ≥ LargeTransactionThreshold
        · simp [mainScan, hs, hbal, hlarge, List.filter_cons, List.filter_append,
            mkLargeAnomaly, mkOverdraftAnomaly, ih]
        · simp [mainScan, hs, hbal, hlarge, List.filter_cons, List.filter_append,
            mkOverdraftAnomaly, ih]
      · by_cases hlarge : t.Amount ≥ LargeTransactionThreshold
        · simp [mainScan, hs, hbal, hlarge, List.filter_cons, List.filter_append,
            mkLargeAnomaly, ih]
        · simp [mainScan, hs, hbal, hlarge, List.filter_cons, List.filter_append, ih]
    · simp [mainScan, hs, List.filter_cons, ih]

/-- The sequential severity overwrites of the detector compute the
spec's three-bracket classification: `high` below 0.8 of the floor,
`medium` below half of it, `low` otherwise. -/
theorem overdraftSeverity_eq (b : ℚ) :
    overdraftSeverity b =
      if b < OverdraftLimit * 0.8 then "high"
      else if b < OverdraftLimit / 2 then "medium"
      else "low" := by
  unfold overdraftSeverity OverdraftLimit
  norm_num

/-- Claim C8: the `account_overdraft` anomalies of `DetectAnomalies`
are exactly one per completed transaction whose source account has a
negative final balance, in input order, with severity `low` down to
half the overdraft floor, `medium` down to 0.8 of the floor, and
`high` beyond. -/
theorem claim8_overdraft_anomalies (txs : List Transaction)
    (accounts : AccountMap) :
    (DetectAnomalies txs accounts).filter
        (fun an => an.Typ == "account_overdraft") =
      (txs.filter (fun t => t.Status == "completed"
          && decide ((accounts t.AccountID).Balance < 0))).map
        (fun t =>
          { TransactionID := t.ID
            AccountID := t.AccountID
            Timestamp := t.Timestamp
            Typ := "account_overdraft"
            Severity :=
              if (accounts t.AccountID).Balance < OverdraftLimit * 0.8
              then "high"
              else if (accounts t.AccountID).Balance < OverdraftLimit / 2
              then "medium"
              else "low" }) := by
  unfold DetectAnomalies
  rw [List.filter_append]
  rw [rapid_part_filter_overdraft]
  rw [List.append_nil]
  rw [mainScan_filter_overdraft accounts txs []]
  have hfun : mkOverdraftAnomaly accounts =
      (fun t : Transaction =>
        ({ TransactionID := t.ID
           AccountID := t.AccountID
           Timestamp := t.Timestamp
           Typ := "account_overdraft"
           Severity :=
             if (accounts t.AccountID).Balance < OverdraftLimit * 0.8
             then "high"
             else if (accounts t.AccountID).Balance < OverdraftLimit / 2
             then "medium"
             else "low" } : Anomaly)) := by
    funext t
    unfold mkOverdraftAnomaly
    rw [overdraftSeverity_eq]
  rw [hfun]

/-- If no window at or after `i` qualifies, the rapid loop emits
nothing. -/
theorem rapidFrom_of_none (a : String) (ws : List Transaction) :
    ∀ n i, ws.length - i ≤ n → RapidWithdrawalThreshold - 1 ≤ i →
      (∀ j, i ≤ j → ¬ windowQual ws j) → rapidFrom a ws i = [] := by
  intro n
  induction n with
  | zero =>
    intro i hle _ _
    rw [rapidFrom]
    rw [if_neg (by omega)]
  | succ n ih =>
    intro i hle hthr hq
    rw [rapidFrom]
    by_cases h : i < ws.length
    · have hspan : ¬ ((ws.getD i default).Timestamp
          - (ws.getD (i - (RapidWithdrawalThreshold - 1)) default).Timestamp
          ≤ RapidWithdrawalTimeWindowMins) :=
        fun hsp => hq i le_rfl ⟨hthr, h, hsp⟩
      rw [if_pos h, if_neg hspan]
      exact ih (i + 1) (by omega) (by omega)
        (fun j hj => hq j (by omega))
    · rw [if_neg h]

/-- If the window ending at `k` is the first qualifying one at or
after `i`, the rapid loop emits exactly the anomaly anchored at
`ws[k]` and stops. -/
theorem rapidFrom_of_first (a : String) (ws : List Transaction) :
    ∀ n i k, ws.length - i ≤ n → RapidWithdrawalThreshold - 1 ≤ i →
      i ≤ k → windowQual ws k →
      (∀ j, i ≤ j → j < k → ¬ windowQual ws j) →
      rapidFrom a ws i =
        [{ TransactionID := (ws.getD k default).ID
           AccountID := a
           Timestamp := (ws.getD k default).Timestamp
           Typ := "rapid_withdrawals"
           Severity := "high" }] := by
  intro n
  induction n with
  | zero =>
    intro i k hle _ hik hk _
    exact absurd hk.2.1 (by omega)
  | succ n ih =>
    intro i k hle hthr hik hk hmin
    have hlen : i < ws.length := by
      have := hk.2.1
      omega
    rw [rapidFrom, if_pos hlen]
    by_cases hspan : (ws.getD i default).Timestamp
        - (ws.getD (i - (RapidWithdrawalThreshold - 1)) default).Timestamp
        ≤ RapidWithdrawalTimeWindowMins
    · by_cases hik2 : i < k
      · exact absurd ⟨hthr, hlen, hspan⟩ (hmin i le_rfl hik2)
      · have hieq : i = k := by omega
        subst hieq
        rw [if_pos hspan]
    · have hik2 : i < k := by
        rcases Nat.lt_or_ge i k with h' | h'
        · exact h'
        · have : i = k := by omega
          subst this
          exact absurd hk.2.2 hspan
      rw [if_neg hspan]
      exact ih (i + 1) k (by omega) (by omega) (by omega) hk
        (fun j hj hjk => hmin j (by omega) hjk)

/-- `rapidScan` of an account with no qualifying window emits
nothing. -/
theorem rapidScan_eq_none (a : String) (ws : List Transaction)
    (h : ∀ i, ¬ windowQual ws i) : rapidScan a ws = [] := by
  unfold rapidScan
  by_cases hl : ws.length ≥ RapidWithdrawalThreshold
  · rw [if_pos hl]
    exact rapidFrom_of_none a ws ws.length (RapidWithdrawalThreshold - 1)
      (by omega) le_rfl (fun j _ => h j)
  · rw [if_neg hl]

/-- `rapidScan` of an account whose first qualifying window ends at
`k` emits exactly the `high` anomaly anchored at `ws[k]`. -/
theorem rapidScan_eq_first (a : String) (ws : List Transaction) (k : Nat)
    (hk : windowQual ws k) (hmin : ∀ j < k, ¬ windowQual ws j) :
    rapidScan a ws =
      [{ TransactionID := (ws.getD k default).ID
         AccountID := a
         Timestamp := (ws.getD k default).Timestamp
         Typ := "rapid_withdrawals"
         Severity := "high" }] := by
  obtain ⟨hk1, hk2, hk3⟩ := hk
  unfold rapidScan
  rw [if_pos (by simp only [RapidWithdrawalThreshold] at hk1 ⊢; omega)]
  exact rapidFrom_of_first a ws ws.length (RapidWithdrawalThreshold - 1) k
    (by omega) le_rfl hk1 ⟨hk1, hk2, hk3⟩ (fun j _ hjk => hmin j hjk)

/-- Keys after a `wAppend`: either already present (keys unchanged) or
appended at the end. -/
theorem wAppend_keys_mem :
    ∀ (w : WMap) (id : String) (t : Transaction) (x : String),
      x ∈ (wAppend w id t).map Prod.fst ↔
        x ∈ w.map Prod.fst ∨ x = id := by
  intro w
  induction w with
  | nil =>
    intro id t x
    simp [wAppend]
  | cons p rest ih =>
    intro id t x
    obtain ⟨k, ws⟩ := p
    simp only [wAppend]
    by_cases hk : k = id
    · rw [if_pos hk]
      subst hk
      simp only [List.map_cons, List.mem_cons]
      constructor
      · exact Or.inl
      · rintro (h | h)
        · exact h
        · exact Or.inl h
    · rw [if_neg hk]
      simp only [List.map_cons, List.mem_cons, ih]
      rw [or_assoc]

/-- `wFind` of an absent key is the empty list. -/
theorem wFind_not_mem :
    ∀ (w : WMap) (a : String), a ∉ w.map Prod.fst → wFind w a = [] := by
  intro w
  induction w with
  | nil => intro a _; rfl
  | cons p rest ih =>
    intro a ha
    obtain ⟨k, ws⟩ := p
    rw [List.map_cons] at ha
    have h1 : ¬ k = a := fun h => ha (by rw [← h]; exact List.mem_cons_self _ _)
    have h2 : a ∉ rest.map Prod.fst := fun h => ha (List.mem_cons_of_mem _ h)
    simp only [wFind]
    rw [if_neg h1]
    exact ih a h2

/-- `wAppend` preserves distinctness of the keys. -/
theorem wAppend_nodup :
    ∀ (w : WMap) (id : String) (t : Transaction),
      (w.map Prod.fst).Nodup → ((wAppend w id t).map Prod.fst).Nodup := by
  intro w
  induction w with
  | nil =>
    intro id t _
    simp [wAppend]
  | cons p rest ih =>
    intro id t hnd
    obtain ⟨k, ws⟩ := p
    rw [List.map_cons, List.nodup_cons] at hnd
    simp only [wAppend]
    by_cases hk : k = id
    · rw [if_pos hk]
      subst hk
      rw [List.map_cons, List.nodup_cons]
      exact hnd
    · rw [if_neg hk]
      rw [List.map_cons, List.nodup_cons]
      refine ⟨?_, ih id t hnd.2⟩
      intro hmem
      rcases (wAppend_keys_mem rest id t k).mp hmem with h | h
      · exact hnd.1 h
      · exact hk h

/-- The main scan preserves distinctness of the withdrawal-map
keys. -/
theorem mainScan_keys_nodup (accounts : AccountMap) :
    ∀ (ts : List Transaction) (w : WMap),
      (w.map Prod.fst).Nodup →
      (((mainScan accounts w ts).2).map Prod.fst).Nodup := by
  intro ts
  induction ts with
  | nil => intro w hnd; exact hnd
  | cons t ts ih =>
    intro w hnd
    by_cases hs : t.Status = "completed"
    · by_cases hty : t.Typ = "debit"
      · simp only [mainScan, hs, hty, if_true, eq_self_iff_true, if_pos]
        exact ih (wAppend w t.AccountID t) (wAppend_nodup w t.AccountID t hnd)
      · simp only [mainScan, hs, if_true, eq_self_iff_true, if_pos]
        rw [if_neg hty]
        exact ih w hnd
    · simp only [mainScan, hs]
      rw [if_neg (by simp)]
      exact ih w hnd

/-- An empty withdrawal list produces no rapid-withdrawal anomaly. -/
theorem rapidScan_nil (a : String) : rapidScan a [] = [] := by
  unfold rapidScan
  rw [if_neg (by simp [RapidWithdrawalThreshold])]

/-- Every anomaly of the main scan is a large-transaction or an
account-overdraft anomaly. -/
theorem mainScan_anomaly_typ (accounts : AccountMap) :
    ∀ (ts : List Transaction) (w : WMap),
      ∀ an ∈ (mainScan accounts w ts).1,
        an.Typ = "large_transaction" ∨ an.Typ = "account_overdraft" := by
  intro ts
  induction ts with
  | nil =>
    intro w an han
    simp [mainScan] at han
  | cons t ts ih =>
    intro w an han
    by_cases hs : t.Status = "completed"
    · simp only [mainScan, hs, if_true, eq_self_iff_true, if_pos,
        List.mem_append] at han
      rcases han with h | h
      · rcases h with h' | h'
        · by_cases hlarge : t.Amount ≥ LargeTransactionThreshold
          · rw [if_pos hlarge] at h'
            simp at h'
            subst h'
            exact Or.inl rfl
          · rw [if_neg hlarge] at h'
            simp at h'
        · by_cases hbal : (accounts t.AccountID).Balance < 0
          · rw [if_pos hbal] at h'
            simp at h'
            subst h'
            exact Or.inr rfl
          · rw [if_neg hbal] at h'
            simp at h'
      · exact ih _ an h
    · simp only [mainScan, hs] at han
      rw [if_neg (by simp)] at han
      exact ih w an han

/-- The main scan contributes no `rapid_withdrawals` anomaly. -/
theorem mainScan_filter_rapid (accounts : AccountMap) (a : String)
    (ts : List Transaction) (w : WMap) :
    ((mainScan accounts w ts).1).filter
        (fun an => an.Typ == "rapid_withdrawals" && an.AccountID == a) = [] := by
  rw [List.filter_eq_nil_iff]
  intro an han
  rcases mainScan_anomaly_typ accounts ts w an han with h | h <;> simp [h]

/-- Filtering the concatenated per-account rapid anomalies down to one
account yields that account's scan of its own withdrawal list
(provided the keys are distinct, as the main scan guarantees). -/
theorem rapid_join_filter (a : String) :
    ∀ w : WMap, (w.map Prod.fst).Nodup →
      ((w.map (fun p => rapidScan p.1 p.2)).flatten).filter
          (fun an => an.Typ == "rapid_withdrawals" && an.AccountID == a) =
        rapidScan a (wFind w a) := by
  intro w
  induction w with
  | nil =>
    intro _
    simp [wFind, rapidScan_nil]
  | cons p rest ih =>
    intro hnd
    obtain ⟨k, ws⟩ := p
    rw [List.map_cons, List.nodup_cons] at hnd
    simp only [List.map_cons, List.flatten_cons, List.filter_append]
    by_cases hak : k = a
    · subst hak
      have h1 : (rapidScan k ws).filter
          (fun an => an.Typ == "rapid_withdrawals" && an.AccountID == k)
          = rapidScan k ws := by
        rw [List.filter_eq_self]
        intro an han
        have h := rapidScan_mem k ws an han
        simp [h.1, h.2.1]
      have h2 : wFind rest k = [] := wFind_not_mem rest k hnd.1
      rw [h1, ih hnd.2, h2, rapidScan_nil, List.append_nil]
      simp [wFind]
    · have h1 : (rapidScan k ws).filter
          (fun an => an.Typ == "rapid_withdrawals" && an.AccountID == a)
          = [] := by
        rw [List.filter_eq_nil_iff]
        intro an han
        have h := rapidScan_mem k ws an han
        simp [h.1, h.2.1, hak]
      rw [h1, ih hnd.2, List.nil_append]
      simp only [wFind]
      rw [if_neg hak]

/-- The rapid-withdrawal anomalies `DetectAnomalies` emits for one
account are exactly the scan of that account's completed debits. -/
theorem detect_rapid_for_account (txs : List Transaction)
    (accounts : AccountMap) (a : String) :
    (DetectAnomalies txs accounts).filter
        (fun an => an.Typ == "rapid_withdrawals" && an.AccountID == a) =
      rapidScan a (completedDebitsFor txs a) := by
  unfold DetectAnomalies
  rw [List.filter_append]
  rw [mainScan_filter_rapid accounts a txs []]
  rw [List.nil_append]
  rw [rapid_join_filter a ((mainScan accounts [] txs).2)
    (mainScan_keys_nodup accounts txs [] (by simp))]
  rw [mainScan_wFind accounts txs [] a]
  rfl

/-- Claim C9: per account, `DetectAnomalies` emits no
`rapid_withdrawals` anomaly when no size-3 window of that account's
completed debits (in input order) spans at most 60 minutes — in
particular when there are fewer than 3 of them — and emits exactly one
`high` anomaly anchored at the last transaction of the first
qualifying window otherwise, scanning no further windows. -/
theorem claim9_rapid_withdrawals (txs : List Transaction)
    (accounts : AccountMap) (a : String) :
    ((∀ i, ¬ windowQual (completedDebitsFor txs a) i) →
       (DetectAnomalies txs accounts).filter
           (fun an => an.Typ == "rapid_withdrawals" && an.AccountID == a)
         = []) ∧
    (∀ k, windowQual (completedDebitsFor txs a) k →
       (∀ j < k, ¬ windowQual (completedDebitsFor txs a) j) →
       (DetectAnomalies txs accounts).filter
           (fun an => an.Typ == "rapid_withdrawals" && an.AccountID == a)
         = [{ TransactionID := ((completedDebitsFor txs a).getD k default).ID
              AccountID := a
              Timestamp :=
                ((completedDebitsFor txs a).getD k default).Timestamp
              Typ := "rapid_withdrawals"
              Severity := "high" }]) := by
  constructor
  · intro h
    rw [detect_rapid_for_account txs accounts a]
    exact rapidScan_eq_none a (completedDebitsFor txs a) h
  · intro k hk hmin
    rw [detect_rapid_for_account txs accounts a]
    exact rapidScan_eq_first a (completedDebitsFor txs a) k hk hmin

/-- Witness for C9: the spec scenario — four completed debits on one
account at minutes 0, 2, 5, 8 — produces exactly one rapid-withdrawal
anomaly, anchored at the transaction completing the first qualifying
3-window (`T3`), and none for the fourth debit. -/
theorem claim9_witness :
    (DetectAnomalies
        [completedTx "T1" "A1" "" 0 100 "debit",
         completedTx "T2" "A1" "" 2 100 "debit",
         completedTx "T3" "A1" "" 5 100 "debit",
         completedTx "T4" "A1" "" 8 100 "debit"] (uniMap 500)).filter
        (fun an => an.Typ == "rapid_withdrawals" && an.AccountID == "A1")
      = [{ TransactionID := "T3"
           AccountID := "A1"
           Timestamp := 5
           Typ := "rapid_withdrawals"
           Severity := "high" }] := by
  have hcdf : completedDebitsFor
      [completedTx "T1" "A1" "" 0 100 "debit",
       completedTx "T2" "A1" "" 2 100 "debit",
       completedTx "T3" "A1" "" 5 100 "debit",
       completedTx "T4" "A1" "" 8 100 "debit"] "A1"
      = [completedTx "T1" "A1" "" 0 100 "debit",
         completedTx "T2" "A1" "" 2 100 "debit",
         completedTx "T3" "A1" "" 5 100 "debit",
         completedTx "T4" "A1" "" 8 100 "debit"] := by
    simp [completedDebitsFor, completedTx, pendingTx]
  have h := (claim9_rapid_withdrawals
    [completedTx "T1" "A1" "" 0 100 "debit",
     completedTx "T2" "A1" "" 2 100 "debit",
     completedTx "T3" "A1" "" 5 100 "debit",
     completedTx "T4" "A1" "" 8 100 "debit"] (uniMap 500) "A1").2 2
    (by rw [hcdf]
        refine ⟨by simp [RapidWithdrawalThreshold], by simp, ?_⟩
        simp [completedTx, pendingTx, RapidWithdrawalThreshold,
          RapidWithdrawalTimeWindowMins]
        norm_num)
    (by intro j hj hq
        obtain ⟨h1, _, _⟩ := hq
        simp [RapidWithdrawalThreshold] at h1
        omega)
  rw [h, hcdf]
  simp [completedTx, pendingTx]
